import Mathlib

/-!
Verification of `Wcdctool/modules/ArgumentParser.py` — a declarative wrapper
around Python's `argparse.ArgumentParser`.

The module is shallowly embedded below: option descriptors (Python dicts)
become a `Desc` structure with `Option`-valued fields (a `none` field models a
missing dictionary key, so a dictionary access of a missing key becomes an
`Except` failure, mirroring Python's `KeyError`); the constructor's
registration loop, the overridden `print_help` and `error` methods become pure
functions returning `Except` values, where `Except.error` models a raised
Python exception and a successful result carries the would-be output and exit
code.  Python's `%` string formatting is embedded as `pyFormatChars`.
Object identity and in-place mutation of the shared module-level constant
`OPT_DEFAULT_HELP` are modelled separately by a small heap of descriptors
addressed by natural numbers.
-/

set_option autoImplicit false

namespace ArgParse

/-- The `nargs` value of a positional descriptor: an exact count (Python int),
or one of the strings `"?"`, `"+"`, `"*"`. -/
inductive Nargs where
  | num : Nat → Nargs
  | qmark : Nargs
  | plus : Nargs
  | star : Nargs
deriving DecidableEq, Repr

/-- An option descriptor (a Python dict).  A field holding `none` models a key
that is absent from the dictionary.  The computed `syntax` key of the source is
called `syn` here. -/
structure Desc where
  type : String
  name : Option String
  short : Option String
  long : Option String
  arg : Option String
  nargs : Option Nargs
  dflt : Option String
  display : Option String
  help : Option String
  syn : Option String
deriving DecidableEq, Repr

/-- A descriptor with every key absent; `Desc` literals are built from it. -/
def emptyDesc : Desc :=
  { type := "", name := none, short := none, long := none, arg := none,
    nargs := none, dflt := none, display := none, help := none, syn := none }

/-- A parsed value as stored by the underlying engine (a Python value). -/
inductive PyVal where
  | pynone : PyVal
  | pybool : Bool → PyVal
  | pystr : String → PyVal
  | pylist : List String → PyVal
deriving DecidableEq, Repr

/-- One `add_argument` registration made against the underlying
`argparse` engine.  `kind` records the descriptor `type` that produced the
registration; `nargs := none` models passing Python `None` for `nargs`. -/
structure Reg where
  kind : String
  flags : List String
  nargs : Option Nargs
  action : String
  dest : Option String
  dfltVal : PyVal
deriving DecidableEq, Repr

/-- Module-level constant `MSG_SYNTAX_ERROR`. -/
def MSG_SYNTAX_ERROR : String :=
  "Invalid command line. Use --help to display available options."

/-- Module-level constant `MSG_USAGE_HELP`. -/
def MSG_USAGE_HELP : String := "Usage: %s [OPTION]... %s\n\nOptions:"

/-- Module-level constant `OPT_DEFAULT_HELP` (its initial value: the computed
`syntax` key is not yet attached). -/
def OPT_DEFAULT_HELP : Desc :=
  { emptyDesc with
    type := "help", name := some "help", short := some "-h",
    long := some "--help", help := some "Display this message" }

/-- Module-level constant `EXITCODE_ERROR`. -/
def EXITCODE_ERROR : Nat := 2

/-- Module-level constant `EXITCODE_USAGE`. -/
def EXITCODE_USAGE : Nat := 0

/-- Accessing a dictionary key: `KeyError` when absent. -/
def req {α : Type} : Option α → Except String α
  | some v => .ok v
  | none => .error "KeyError"

/-- One iteration of the constructor's registration loop (source lines
113–127): computes and attaches the `syntax` key of the descriptor and
produces the `add_argument` registration; an unrecognized `type` raises
(`raise Exception`, line 127). -/
def registerOption (o : Desc) : Except String (Desc × Reg) :=
  if o.type == "normal" then do
    let s ← req o.short
    let l ← req o.long
    let a ← req o.arg
    let n ← req o.name
    .ok ({ o with syn := some (s ++ ", " ++ l ++ "=" ++ a) },
         { kind := "normal", flags := [s, l], nargs := some .qmark,
           action := "store", dest := some n,
           dfltVal := match o.dflt with
                      | some v => .pystr v
                      | none => .pynone })
  else if o.type == "switch" then do
    let s ← req o.short
    let l ← req o.long
    let n ← req o.name
    .ok ({ o with syn := some (s ++ ", " ++ l) },
         { kind := "switch", flags := [s, l], nargs := none,
           action := "store_true", dest := some n, dfltVal := .pybool false })
  else if o.type == "positional" then do
    let n ← req o.name
    let na ← req o.nargs
    .ok ({ o with syn := some n },
         { kind := "positional", flags := [n],
           nargs := if na = .num 1 then none else some na,
           action := "store", dest := some n, dfltVal := .pynone })
  else if o.type == "help" then do
    let s ← req o.short
    let l ← req o.long
    .ok ({ o with syn := some (s ++ ", " ++ l) },
         { kind := "help", flags := [s, l], nargs := none,
           action := "help", dest := none, dfltVal := .pynone })
  else
    .error "Exception"

/-- The constructor's registration loop over the whole descriptor list;
stops at the first raised exception. -/
def registerAll : List Desc → Except String (List (Desc × Reg))
  | [] => .ok []
  | o :: rest =>
    match registerOption o with
    | .error e => .error e
    | .ok p =>
      match registerAll rest with
      | .error e => .error e
      | .ok ps => .ok (p :: ps)

/-- The registrations actually performed before the first exception (the loop
registers descriptors one at a time, in order). -/
def regTrace : List Desc → List Reg
  | [] => []
  | o :: rest =>
    match registerOption o with
    | .ok (_, r) => r :: regTrace rest
    | .error _ => []

/-- The constructor's search for a provided `help` descriptor
(source lines 100–105): the first descriptor with `type == "help"`. -/
def findHelp : List Desc → Option Desc
  | [] => none
  | o :: rest => if o.type == "help" then some o else findHelp rest

/-- The state of a constructed `ArgumentParser` instance. -/
structure ParserState where
  options : List Desc
  regs : List Reg
  optHelp : Desc
  msgError : String
  excError : Nat
  msgUsage : String
  excUsage : Nat
deriving DecidableEq, Repr

/-- The constructor `ArgumentParser.__init__` (source lines 88–127): find
or append the `help` descriptor, then attach `syntax` to and register every
descriptor.  `Except.error` models an exception raised before construction
completes.  (In the source `opt_help` aliases a list element and is mutated
with it; only its `long` key is read afterwards, which registration never
changes, so storing the pre-registration descriptor is observationally
faithful.  The aliasing itself is modelled by `constructH` below.) -/
def construct (opts : List Desc) (msgError : String) (excError : Nat)
    (msgUsage : String) (excUsage : Nat) : Except String ParserState :=
  let pair :=
    match findHelp opts with
    | some h => (opts, h)
    | none => (opts ++ [OPT_DEFAULT_HELP], OPT_DEFAULT_HELP)
  match registerAll pair.1 with
  | .error e => .error e
  | .ok ps =>
    .ok { options := ps.map Prod.fst, regs := ps.map Prod.snd,
          optHelp := pair.2, msgError := msgError, excError := excError,
          msgUsage := msgUsage, excUsage := excUsage }

/-- The registrations performed during construction up to the first
exception. -/
def constructTrace (opts : List Desc) : List Reg :=
  match findHelp opts with
  | some _ => regTrace opts
  | none => regTrace (opts ++ [OPT_DEFAULT_HELP])

/-- Python's `%` string formatting with a tuple of string arguments,
restricted to the `%s` conversion and the `%%` escape (the only forms the
module uses).  A conversion with no argument left raises; leftover arguments
raise `TypeError: not all arguments converted during string formatting`. -/
def pyFormatChars : List Char → List String → Except String String
  | [], [] => .ok ""
  | [], _ :: _ => .error "not all arguments converted during string formatting"
  | c :: cs, args =>
    if c = '%' then
      match cs, args with
      | 's' :: rest, a :: rem =>
        match pyFormatChars rest rem with
        | .ok s => .ok (a ++ s)
        | .error e => .error e
      | 's' :: _, [] => .error "not enough arguments for format string"
      | '%' :: rest, rem =>
        match pyFormatChars rest rem with
        | .ok s => .ok ("%" ++ s)
        | .error e => .error e
      | [], _ => .error "incomplete format"
      | _ :: _, _ => .error "unsupported format character"
    else
      match pyFormatChars cs args with
      | .ok s => .ok (String.singleton c ++ s)
      | .error e => .error e

/-- `fmt % arg` for a single (non-tuple) argument. -/
def pyFormat1 (fmt : String) (arg : String) : Except String String :=
  pyFormatChars fmt.data [arg]

/-- `fmt % (a, b)` for a pair of arguments. -/
def pyFormat2 (fmt : String) (a b : String) : Except String String :=
  pyFormatChars fmt.data [a, b]

/-- `ArgumentParser.error` (source lines 169–170): ignores the
engine-supplied `message` and calls
`self.exit(self.exc_error, self.msg_error % self.opt_help["long"] + "\n")`.
`argparse`'s `exit(status, message)` writes `message` and terminates the
process with `status`; an `Except.ok (status, message)` models that
termination, while `Except.error` models an exception raised inside `error`
itself (`KeyError` or the `TypeError` of a failed `%` formatting). -/
def error (p : ParserState) (message : String) : Except String (Nat × String) := do
  let _ := message
  let l ← req p.optHelp.long
  let m ← pyFormat1 p.msgError l
  .ok (p.excError, m ++ "\n")

/-- Python's `str.upper()` (over the ASCII names the module handles):
uppercase every character. -/
def pyUpper (s : String) : String := String.mk (s.data.map Char.toUpper)

/-- `option["display"].upper() if ("display" in option) else option["name"].upper()`
(used throughout the usage-line rendering, source lines 140–150). -/
def upperName (o : Desc) : Except String String :=
  match o.display with
  | some d => .ok (pyUpper d)
  | none => do
    let n ← req o.name
    .ok (pyUpper n)

/-- The text `print_help` appends to the usage line's positional rendering for
one positional descriptor (source lines 137–151), trailing separator space
included. -/
def posSegment (o : Desc) : Except String String := do
  let na ← req o.nargs
  match na with
  | .qmark => do
    let u ← upperName o
    .ok ("[" ++ u ++ "]" ++ " ")
  | .plus => do
    let u ← upperName o
    .ok (u ++ "..." ++ " ")
  | .star => do
    let u ← upperName o
    .ok ("[" ++ u ++ "]..." ++ " ")
  | .num k => do
    let u ← upperName o
    .ok (String.join (List.replicate k (u ++ " ")) ++ " ")

/-- The positional-arguments rendering of the usage line (the `positional`
accumulator of source lines 135–151). -/
def positionalRendering : List Desc → Except String String
  | [] => .ok ""
  | o :: rest =>
    if o.type == "positional" then do
      let s ← posSegment o
      let r ← positionalRendering rest
      .ok (s ++ r)
    else positionalRendering rest

/-- The `maxlen` computation of `print_help` (source lines 155–158): the
maximum length of the `syntax` key over ALL descriptors, positionals
included. -/
def maxlenOf : List Desc → Except String Nat
  | [] => .ok 0
  | o :: rest => do
    let s ← req o.syn
    let m ← maxlenOf rest
    .ok (max s.length m)

/-- Python's `%-Ns` conversion: left-justify in a field of width `w` (no
truncation when longer). -/
def ljust (s : String) (w : Nat) : String :=
  s ++ String.mk (List.replicate (w - s.length) ' ')

/-- One line of the options listing: the template
`"  %-" + str(maxlen+2) + "s%s"` applied to `(syntax, help)`
(source lines 159–162). -/
def optionLine (maxlen : Nat) (o : Desc) : Except String String := do
  let s ← req o.syn
  let h ← req o.help
  .ok ("  " ++ ljust s (maxlen + 2) ++ h)

/-- The options listing: one line per non-positional descriptor, in
descriptor order (source lines 160–162). -/
def optionLines (maxlen : Nat) : List Desc → Except String (List String)
  | [] => .ok []
  | o :: rest =>
    if o.type != "positional" then do
      let l ← optionLine maxlen o
      let ls ← optionLines maxlen rest
      .ok (l :: ls)
    else optionLines maxlen rest

/-- `ArgumentParser.print_help` (source lines 132–165): the usage line, the
option lines and the exit code `exc_usage` passed to `sys.exit`.
`argv0base` stands for `os.path.basename(sys.argv[0])`. -/
def print_help (p : ParserState) (argv0base : String) :
    Except String (List String × Nat) := do
  let pos ← positionalRendering p.options
  let usage ← pyFormat2 p.msgUsage argv0base pos
  let maxlen ← maxlenOf p.options
  let ls ← optionLines maxlen p.options
  .ok (usage :: ls, p.excUsage)

/-- Modelled from the spec: the underlying engine (Python's `argparse`, not
part of this repository) stores, for a positional registration, a scalar when
`nargs` was registered as `None`, and a list of the matched tokens when an
explicit arity was registered ("exact-count-of-1 yields a scalar per the
quirk" — spec §4.1; the quirk lives in the registration, embedded above from
the source). -/
def engineStorePos (r : Reg) (tokens : List String) : Option PyVal :=
  match r.nargs with
  | none => match tokens with
            | [t] => some (.pystr t)
            | _ => none
  | some (.num k) => if tokens.length = k then some (.pylist tokens) else none
  | some .qmark => match tokens with
                   | [] => some .pynone
                   | [t] => some (.pystr t)
                   | _ => none
  | some .plus => if tokens.length ≥ 1 then some (.pylist tokens) else none
  | some .star => some (.pylist tokens)

/-- Modelled from the spec: when an optional flag does not appear on the
command line, the underlying engine (Python's `argparse`, not part of this
repository) stores the registration's default value under its destination
(spec §4.1: "default from `default` field or none, stored under `name`"). -/
def engineAbsent (r : Reg) : PyVal := r.dfltVal

/-- The number of descriptors with `type == "help"` in a list. -/
def countHelp (l : List Desc) : Nat :=
  (l.filter (fun o => o.type == "help")).length

/-!
Heap model of Python object identity.  Descriptor dictionaries live in a heap
addressed by naturals; a Python variable or list element holding a dictionary
is an address.  `option["syntax"] = ...` is a store at the dictionary's
address, so mutation through one alias is visible through every other.  The
module-level constant `OPT_DEFAULT_HELP` is one fixed cell of this heap.
-/

/-- A heap of descriptor objects; address `a` refers to `cells[a]`. -/
structure Heap where
  cells : List Desc
deriving DecidableEq, Repr

/-- Dereference an address (out-of-range addresses yield the vacuous
descriptor, which no well-formed hypothesis matches). -/
def Heap.get (h : Heap) (a : Nat) : Desc := h.cells.getD a emptyDesc

/-- Store a descriptor at an address. -/
def Heap.set (h : Heap) (a : Nat) (d : Desc) : Heap := ⟨h.cells.set a d⟩

/-- The constructor's search for a provided `help` descriptor, on
addresses. -/
def findHelpAddr (h : Heap) : List Nat → Option Nat
  | [] => none
  | a :: rest => if (h.get a).type == "help" then some a else findHelpAddr h rest

/-- The constructor's registration loop on the heap: each iteration
overwrites the descriptor object in place with its `syntax` key attached
(the store `option["syntax"] = ...` of source lines 115–124). -/
def attachSynAddrs : Heap → List Nat → Except String Heap
  | h, [] => .ok h
  | h, a :: rest =>
    match registerOption (h.get a) with
    | .error e => .error e
    | .ok p => attachSynAddrs (h.set a p.1) rest

/-- `ArgumentParser.__init__` on the heap: `optAddrs` is the caller's
`options` list (a list of dictionary addresses), `haddr` the address of the
module-level constant `OPT_DEFAULT_HELP`.  When no `help` descriptor is
found, line 110 appends the constant's address itself — not a copy — to the
list.  Returns the final heap, the instance's `options` address list and the
address `self.opt_help` holds. -/
def constructH (h : Heap) (optAddrs : List Nat) (haddr : Nat) :
    Except String (Heap × List Nat × Nat) :=
  let pair :=
    match findHelpAddr h optAddrs with
    | some a => (optAddrs, a)
    | none => (optAddrs ++ [haddr], haddr)
  match attachSynAddrs h pair.1 with
  | .error e => .error e
  | .ok h2 => .ok (h2, pair.1, pair.2)

/-!  Inversion lemmas about single registrations. -/

theorem registerOption_ok_props {o d : Desc} {r : Reg}
    (h : registerOption o = .ok (d, r)) :
    d.syn.isSome = true ∧ d.type = o.type ∧
    (r.kind = "normal" ∨ r.kind = "switch" ∨ r.kind = "positional" ∨
      r.kind = "help") := by
  unfold registerOption at h
  split at h
  · cases hs : o.short <;> cases hl : o.long <;> cases ha : o.arg <;>
      cases hn : o.name <;> simp_all [req, bind, Except.bind]
    obtain ⟨hd, hr⟩ := h
    subst hd
    subst hr
    simp_all
  · split at h
    · cases hs : o.short <;> cases hl : o.long <;> cases hn : o.name <;>
        simp_all [req, bind, Except.bind]
      obtain ⟨hd, hr⟩ := h
      subst hd
      subst hr
      simp_all
    · split at h
      · cases hn : o.name <;> cases hna : o.nargs <;>
          simp_all [req, bind, Except.bind]
        obtain ⟨hd, hr⟩ := h
        subst hd
        subst hr
        simp_all
      · split at h
        · cases hs : o.short <;> cases hl : o.long <;>
            simp_all [req, bind, Except.bind]
          obtain ⟨hd, hr⟩ := h
          subst hd
          subst hr
          simp_all
        · simp_all

theorem registerOption_bad_type {o : Desc}
    (h1 : o.type ≠ "normal") (h2 : o.type ≠ "switch")
    (h3 : o.type ≠ "positional") (h4 : o.type ≠ "help") :
    registerOption o = .error "Exception" := by
  unfold registerOption
  simp [h1, h2, h3, h4]

/-!  Lemmas about the whole registration loop. -/

theorem registerAll_ok_types {L : List Desc} {ps : List (Desc × Reg)}
    (h : registerAll L = .ok ps) :
    ps.map (fun q => q.1.type) = L.map Desc.type := by
  induction L generalizing ps with
  | nil =>
    simp [registerAll] at h
    subst h
    rfl
  | cons o rest ih =>
    unfold registerAll at h
    cases hro : registerOption o with
    | error e => simp [hro] at h
    | ok p =>
      cases hra : registerAll rest with
      | error e => simp [hro, hra] at h
      | ok ps' =>
        simp [hro, hra] at h
        subst h
        obtain ⟨q1, q2⟩ := p
        simp [ih hra, (registerOption_ok_props hro).2.1]

theorem registerAll_ok_length {L : List Desc} {ps : List (Desc × Reg)}
    (h : registerAll L = .ok ps) : ps.length = L.length := by
  have := congrArg List.length (registerAll_ok_types h)
  simpa using this

theorem registerAll_mem_ok {L : List Desc} {ps : List (Desc × Reg)}
    {pr : Desc × Reg} (h : registerAll L = .ok ps) (hm : pr ∈ ps) :
    ∃ o ∈ L, registerOption o = .ok pr := by
  induction L generalizing ps with
  | nil =>
    simp [registerAll] at h
    subst h
    simp at hm
  | cons o rest ih =>
    unfold registerAll at h
    cases hro : registerOption o with
    | error e => simp [hro] at h
    | ok p =>
      cases hra : registerAll rest with
      | error e => simp [hro, hra] at h
      | ok ps' =>
        simp [hro, hra] at h
        subst h
        rcases List.mem_cons.mp hm with hq | hq
        · exact ⟨o, List.mem_cons_self o rest, by rw [hro, hq]⟩
        · obtain ⟨o', ho', hro'⟩ := ih hra hq
          exact ⟨o', List.mem_cons_of_mem o ho', hro'⟩

theorem registerAll_forall_ok {L : List Desc} {ps : List (Desc × Reg)}
    (h : registerAll L = .ok ps) :
    ∀ o ∈ L, ∃ pr, registerOption o = .ok pr := by
  induction L generalizing ps with
  | nil => simp
  | cons o rest ih =>
    unfold registerAll at h
    cases hro : registerOption o with
    | error e => simp [hro] at h
    | ok p =>
      cases hra : registerAll rest with
      | error e => simp [hro, hra] at h
      | ok ps' =>
        intro o' ho'
        rcases List.mem_cons.mp ho' with hq | hq
        · exact ⟨p, by rw [hq, hro]⟩
        · exact ih hra o' hq

theorem registerAll_append_ok {L1 L2 : List Desc} {ps : List (Desc × Reg)}
    (h : registerAll (L1 ++ L2) = .ok ps) :
    ∃ p1 p2, registerAll L1 = .ok p1 ∧ registerAll L2 = .ok p2 ∧
      ps = p1 ++ p2 := by
  induction L1 generalizing ps with
  | nil => exact ⟨[], ps, rfl, h, rfl⟩
  | cons o rest ih =>
    rw [List.cons_append] at h
    unfold registerAll at h
    cases hro : registerOption o with
    | error e => simp [hro] at h
    | ok p =>
      cases hra : registerAll (rest ++ L2) with
      | error e => simp [hro, hra] at h
      | ok ps' =>
        simp [hro, hra] at h
        subst h
        obtain ⟨p1, p2, h1, h2, hps⟩ := ih hra
        refine ⟨p :: p1, p2, ?_, h2, by simp [hps]⟩
        simp [registerAll, hro, h1]

/-!  Lemmas about the help lookup, the help count, `maxlen` and the
usage-line rendering. -/

theorem findHelp_eq_none {L : List Desc} :
    findHelp L = none ↔ ∀ o ∈ L, o.type ≠ "help" := by
  induction L with
  | nil => simp [findHelp]
  | cons o rest ih =>
    by_cases ht : o.type = "help"
    · simp [findHelp, ht]
    · simp [findHelp, ht, ih]

theorem findHelp_eq_some {L : List Desc} {h : Desc}
    (hf : findHelp L = some h) : h ∈ L ∧ h.type = "help" := by
  induction L with
  | nil => simp [findHelp] at hf
  | cons o rest ih =>
    by_cases ht : o.type = "help"
    · simp [findHelp, ht] at hf
      subst hf
      exact ⟨List.mem_cons_self o rest, ht⟩
    · simp [findHelp, ht] at hf
      obtain ⟨hm, ht'⟩ := ih hf
      exact ⟨List.mem_cons_of_mem o hm, ht'⟩

theorem countHelp_eq_countP (L : List Desc) :
    countHelp L = L.countP (fun o => o.type == "help") := by
  simp [countHelp, List.countP_eq_length_filter]

theorem countHelp_map_fst {L : List Desc} {ps : List (Desc × Reg)}
    (h : ps.map (fun q => q.1.type) = L.map Desc.type) :
    countHelp (ps.map Prod.fst) = countHelp L := by
  rw [countHelp_eq_countP, countHelp_eq_countP, List.countP_map]
  have h1 : ps.countP ((fun o => o.type == "help") ∘ Prod.fst)
      = (ps.map (fun q => q.1.type)).countP (fun t => t == "help") := by
    rw [List.countP_map]
    rfl
  have h2 : L.countP (fun o => o.type == "help")
      = (L.map Desc.type).countP (fun t => t == "help") := by
    rw [List.countP_map]
    rfl
  rw [h1, h2, h]

theorem countHelp_append (L1 L2 : List Desc) :
    countHelp (L1 ++ L2) = countHelp L1 + countHelp L2 := by
  simp [countHelp_eq_countP, List.countP_append]

theorem countHelp_pos {L : List Desc} {h : Desc} (hm : h ∈ L)
    (ht : h.type = "help") : 1 ≤ countHelp L := by
  rw [countHelp_eq_countP]
  exact List.countP_pos_iff.mpr ⟨h, hm, by simp [ht]⟩

theorem countHelp_eq_zero {L : List Desc}
    (hn : ∀ o ∈ L, o.type ≠ "help") : countHelp L = 0 := by
  rw [countHelp_eq_countP]
  exact List.countP_eq_zero.mpr (fun o ho => by simp [hn o ho])

theorem maxlenOf_le {L : List Desc} {m : Nat} {o : Desc} {s : String}
    (h : maxlenOf L = .ok m) (hm : o ∈ L) (hs : o.syn = some s) :
    s.length ≤ m := by
  induction L generalizing m with
  | nil => simp at hm
  | cons o' rest ih =>
    unfold maxlenOf at h
    cases ho' : o'.syn with
    | none => simp [req, ho', bind, Except.bind] at h
    | some s' =>
      cases hr : maxlenOf rest with
      | error e => simp [req, ho', hr, bind, Except.bind] at h
      | ok m' =>
        simp [req, ho', hr, bind, Except.bind] at h
        subst h
        rcases List.mem_cons.mp hm with hq | hq
        · subst hq
          rw [ho'] at hs
          cases hs
          exact le_max_left _ _
        · exact le_trans (ih hr hq) (le_max_right _ _)

theorem positionalRendering_filter (L : List Desc) :
    positionalRendering L
      = positionalRendering (L.filter (fun o => o.type == "positional")) := by
  induction L with
  | nil => rfl
  | cons o rest ih =>
    by_cases ht : o.type = "positional"
    · rw [List.filter_cons_of_pos (by simp [ht])]
      simp [positionalRendering, ht, ih]
    · rw [List.filter_cons_of_neg (by simp [ht])]
      simp [positionalRendering, ht, ih]

/-!  Lemmas about the embedded `%` formatting. -/

theorem pyFormatChars_cons (c : Char) (cs : List Char) (args : List String) :
    pyFormatChars (c :: cs) args
      = if c = '%' then
          match cs, args with
          | 's' :: rest, a :: rem =>
            match pyFormatChars rest rem with
            | .ok s => .ok (a ++ s)
            | .error e => .error e
          | 's' :: _, [] => .error "not enough arguments for format string"
          | '%' :: rest, rem =>
            match pyFormatChars rest rem with
            | .ok s => .ok ("%" ++ s)
            | .error e => .error e
          | [], _ => .error "incomplete format"
          | _ :: _, _ => .error "unsupported format character"
        else
          match pyFormatChars cs args with
          | .ok s => .ok (String.singleton c ++ s)
          | .error e => .error e := by
  rw [pyFormatChars.eq_def]

theorem pyFormatChars_no_pct_nil {cs : List Char} (h : '%' ∉ cs) :
    pyFormatChars cs [] = .ok (String.mk cs) := by
  induction cs with
  | nil => rfl
  | cons c rest ih =>
    have hc : c ≠ '%' := fun hq => h (hq ▸ List.mem_cons_self c rest)
    have hr : '%' ∉ rest := fun hq => h (List.mem_cons_of_mem c hq)
    rw [pyFormatChars_cons, if_neg hc, ih hr]
    rfl

theorem pyFormatChars_no_pct_extra {cs : List Char} {a : String}
    {args : List String} (h : '%' ∉ cs) :
    pyFormatChars cs (a :: args)
      = .error "not all arguments converted during string formatting" := by
  induction cs with
  | nil => rfl
  | cons c rest ih =>
    have hc : c ≠ '%' := fun hq => h (hq ▸ List.mem_cons_self c rest)
    have hr : '%' ∉ rest := fun hq => h (List.mem_cons_of_mem c hq)
    rw [pyFormatChars_cons, if_neg hc, ih hr]

theorem pyFormatChars_append_no_pct {pre cs : List Char} {args : List String}
    (h : '%' ∉ pre) :
    pyFormatChars (pre ++ cs) args
      = (pyFormatChars cs args).map (fun s => String.mk pre ++ s) := by
  induction pre with
  | nil =>
    cases hq : pyFormatChars cs args <;>
      simp [Except.map, hq, String.mk]
  | cons c rest ih =>
    have hc : c ≠ '%' := fun hq => h (hq ▸ List.mem_cons_self c rest)
    have hr : '%' ∉ rest := fun hq => h (List.mem_cons_of_mem c hq)
    rw [List.cons_append, pyFormatChars_cons, if_neg hc, ih hr]
    cases hq : pyFormatChars cs args <;> simp [Except.map, hq]
    rw [← String.append_assoc]
    rfl

/-- `fmt % a` succeeds when the format holds exactly one `%s` and no other
conversion: the result is the format with its placeholder replaced by `a`. -/
theorem pyFormat1_one_placeholder {fmt : String} {pre suf : List Char}
    {a : String} (hf : fmt.data = pre ++ '%' :: 's' :: suf)
    (hpre : '%' ∉ pre) (hsuf : '%' ∉ suf) :
    pyFormat1 fmt a = .ok (String.mk pre ++ (a ++ String.mk suf)) := by
  unfold pyFormat1
  rw [hf, pyFormatChars_append_no_pct hpre, pyFormatChars_cons, if_pos rfl]
  simp only [pyFormatChars_no_pct_nil hsuf]
  rfl

/-!  Lemmas about the heap model. -/

theorem Heap.get_set_ne {h : Heap} {a b : Nat} (hne : a ≠ b) (d : Desc) :
    (h.set a d).get b = h.get b := by
  simp [Heap.get, Heap.set, List.getD, List.getElem?_set_ne hne]

theorem Heap.get_set_self {h : Heap} {a : Nat} (hlt : a < h.cells.length)
    (d : Desc) : (h.set a d).get a = d := by
  simp [Heap.get, Heap.set, List.getD, List.getElem?_set_self, hlt]

theorem Heap.lt_of_get_ne {h : Heap} {a : Nat}
    (hne : h.get a ≠ emptyDesc) : a < h.cells.length := by
  by_contra hc
  exact hne (List.getD_eq_default _ _ (le_of_not_lt hc))

theorem findHelpAddr_none {h : Heap} {l : List Nat}
    (hn : ∀ a ∈ l, (h.get a).type ≠ "help") : findHelpAddr h l = none := by
  induction l with
  | nil => rfl
  | cons a rest ih =>
    simp only [findHelpAddr]
    rw [if_neg (by simp [hn a (List.mem_cons_self a rest)]),
      ih (fun b hb => hn b (List.mem_cons_of_mem a hb))]

theorem attachSynAddrs_append {h : Heap} {l1 l2 : List Nat} :
    attachSynAddrs h (l1 ++ l2)
      = match attachSynAddrs h l1 with
        | .ok h' => attachSynAddrs h' l2
        | .error e => .error e := by
  induction l1 generalizing h with
  | nil => simp [attachSynAddrs]
  | cons a rest ih =>
    rw [List.cons_append]
    simp only [attachSynAddrs]
    cases hq : registerOption (h.get a) with
    | error e => rfl
    | ok p => exact ih

theorem attachSynAddrs_ok_length {h h' : Heap} {l : List Nat}
    (ha : attachSynAddrs h l = .ok h') :
    h'.cells.length = h.cells.length := by
  induction l generalizing h with
  | nil =>
    simp [attachSynAddrs] at ha
    rw [ha]
  | cons a rest ih =>
    unfold attachSynAddrs at ha
    cases hq : registerOption (h.get a) with
    | error e => simp [hq] at ha
    | ok p =>
      rw [hq] at ha
      rw [ih ha]
      simp [Heap.set]

theorem attachSynAddrs_ok_get_notmem {h h' : Heap} {l : List Nat} {b : Nat}
    (hb : b ∉ l) (ha : attachSynAddrs h l = .ok h') :
    h'.get b = h.get b := by
  induction l generalizing h with
  | nil =>
    simp [attachSynAddrs] at ha
    rw [ha]
  | cons a rest ih =>
    unfold attachSynAddrs at ha
    cases hq : registerOption (h.get a) with
    | error e => simp [hq] at ha
    | ok p =>
      rw [hq] at ha
      have hab : a ≠ b := fun hq' => hb (hq' ▸ List.mem_cons_self a rest)
      rw [ih (fun hq' => hb (List.mem_cons_of_mem a hq')) ha,
        Heap.get_set_ne hab]

/-!  Concrete descriptors and parser states used as inputs of the witnesses
and counterexamples below. -/

/-- A switch whose computed `syntax` is `"-a, --aaaa"` (length 10). -/
def switchA : Desc :=
  { emptyDesc with
    type := "switch", name := some "a", short := some "-a",
    long := some "--aaaa", help := some "ha" }

/-- A switch whose computed `syntax` is `"-b, --bbbbbbbbbbbbbb"`
(length 20). -/
def switchB : Desc :=
  { emptyDesc with
    type := "switch", name := some "b", short := some "-b",
    long := some "--bbbbbbbbbbbbbb", help := some "hb" }

/-- A positional whose computed `syntax` (its name, 30 characters) is longer
than every non-positional `syntax`. -/
def longPositional : Desc :=
  { emptyDesc with
    type := "positional", name := some "cccccccccccccccccccccccccccccc",
    nargs := some (.num 1), help := some "hc" }

/-- The positional `{name: "infile", nargs: "+"}`. -/
def infileDesc : Desc :=
  { emptyDesc with
    type := "positional", name := some "infile",
    nargs := some .plus, help := some "Input files" }

/-- The positional `{name: "outfile", nargs: 1}`. -/
def outfileDesc : Desc :=
  { emptyDesc with
    type := "positional", name := some "outfile",
    nargs := some (.num 1), help := some "Output file" }

/-- A second `help`-typed descriptor with flag spellings distinct from the
default one's. -/
def altHelpDesc : Desc :=
  { emptyDesc with
    type := "help", name := some "xhelp", short := some "-x",
    long := some "--xhelp", help := some "alt" }

/-- A `normal` option carrying a `default` value. -/
def logfileDesc : Desc :=
  { emptyDesc with
    type := "normal", name := some "logfile",
    short := some "-l", long := some "--logfile", arg := some "file",
    dflt := some "out.log", help := some "Log file to write to" }

/-- The default help descriptor after construction attached its `syntax`. -/
def defaultHelpProcessed : Desc :=
  { OPT_DEFAULT_HELP with syn := some "-h, --help" }

/-- The registration the default help descriptor produces. -/
def defaultHelpReg : Reg :=
  { kind := "help", flags := ["-h", "--help"], nargs := none,
    action := "help", dest := none, dfltVal := .pynone }

/-- The parser state produced by constructing from an empty descriptor list
with the module-level default messages and exit codes. -/
def emptyConstructState : ParserState :=
  { options := [defaultHelpProcessed], regs := [defaultHelpReg],
    optHelp := OPT_DEFAULT_HELP, msgError := MSG_SYNTAX_ERROR,
    excError := EXITCODE_ERROR, msgUsage := MSG_USAGE_HELP,
    excUsage := EXITCODE_USAGE }

/-- A switch whose computed `syntax` is `"-p, --pretend"` (length 13), shown
here with the `syntax` already attached. -/
def pretendSwitch : Desc :=
  { emptyDesc with
    type := "switch", name := some "p", short := some "-p",
    long := some "--pretend", help := some "No changes",
    syn := some "-p, --pretend" }

/-- Claim C1's `maxlen`, following the spec's words rather than the source
(for comparison with `maxlenOf`, which the source computes over ALL
descriptors): the maximum `syntax` string length across the non-positional
descriptors only. -/
def maxlenNonPosSpec (L : List Desc) : Nat :=
  ((L.filter (fun o => o.type != "positional")).map
    (fun o => (o.syn.getD "").length)).foldr max 0

/-- Equality of embedded outcomes is decidable (used to evaluate the
embedding at concrete inputs). -/
instance {e a : Type} [DecidableEq e] [DecidableEq a] :
    DecidableEq (Except e a) := fun x y =>
  match x, y with
  | .ok v, .ok w =>
    if h : v = w then .isTrue (by rw [h]) else .isFalse (by simp [h])
  | .error v, .error w =>
    if h : v = w then .isTrue (by rw [h]) else .isFalse (by simp [h])
  | .ok _, .error _ => .isFalse (by simp)
  | .error _, .ok _ => .isFalse (by simp)

/-- C1 — the claim is false on the code: the source computes `maxlen` over
ALL descriptors (positionals included, source lines 155–158), and the option
template prefixes two further spaces, so the help text of the rendered line
for the syntax-length-10 switch starts 34 characters from line start, not at
position `maxlenNonPosSpec + 2 = 22`.  Concrete input: descriptor list
`[switchA, switchB, longPositional]` (non-positional syntax lengths 10 and
20, a positional of syntax length 30). -/
theorem C1_counterexample :
    ((construct [switchA, switchB, longPositional] MSG_SYNTAX_ERROR
        EXITCODE_ERROR MSG_USAGE_HELP EXITCODE_USAGE).map
      (fun p => maxlenNonPosSpec p.options) = .ok 20)
  ∧ ((construct [switchA, switchB, longPositional] MSG_SYNTAX_ERROR
        EXITCODE_ERROR MSG_USAGE_HELP EXITCODE_USAGE).bind
      (fun p => print_help p "prog")
    = .ok (["Usage: prog [OPTION]... CCCCCCCCCCCCCCCCCCCCCCCCCCCCCC  \n\nOptions:",
            "  -a, --aaaa                      ha",
            "  -b, --bbbbbbbbbbbbbb            hb",
            "  -h, --help                      Display this message"], EXITCODE_USAGE))
  ∧ ("  -a, --aaaa                      ha".data.drop (20 + 2) ≠ "ha".data)
  ∧ ("  -a, --aaaa                      ha".data.drop 34 = "ha".data) := by
  refine ⟨?_, ?_, ?_, ?_⟩ <;> decide

/-- C1 (amended) — in `print_help`, the help text of each listed
(non-positional) option's line begins `maxlen + 4` characters from the start
of the line (a two-space indent plus a field of width `maxlen + 2`), where
`maxlen` is the maximum `syntax` string length over ALL descriptors,
positionals included. -/
theorem C1_amended {opts : List Desc} {m : Nat} {o : Desc}
    {s htext line : String}
    (hm : maxlenOf opts = .ok m) (hmem : o ∈ opts)
    (hpos : o.type ≠ "positional") (hsyn : o.syn = some s)
    (hhelp : o.help = some htext) (hline : optionLine m o = .ok line) :
    ∃ pre : String, line = pre ++ htext ∧ pre.length = m + 4 := by
  have hle : s.length ≤ m := maxlenOf_le hm hmem hsyn
  unfold optionLine at hline
  simp [req, hsyn, hhelp, bind, Except.bind] at hline
  have hlj : (ljust s (m + 2)).length = m + 2 := by
    unfold ljust
    rw [String.length_append]
    have hmk : (String.mk (List.replicate ((m + 2) - s.length) ' ')).length
        = (m + 2) - s.length := by
      have hq : (String.mk (List.replicate ((m + 2) - s.length) ' ')).length
          = (List.replicate ((m + 2) - s.length) ' ').length := rfl
      rw [hq, List.length_replicate]
    omega
  refine ⟨"  " ++ ljust s (m + 2), hline.symm, ?_⟩
  rw [String.length_append, hlj]
  have h2 : ("  " : String).length = 2 := rfl
  omega

/-- Witness for C1 (amended): a single listed switch of `syntax` length 13;
its help text begins at column 17 = 13 + 4. -/
theorem C1_witness :
    ∃ pre : String, "  -p, --pretend  No changes" = pre ++ "No changes"
      ∧ pre.length = 13 + 4 :=
  @C1_amended [pretendSwitch] 13 pretendSwitch "-p, --pretend" "No changes"
    "  -p, --pretend  No changes" (by decide) (by decide) (by decide)
    (by decide) (by decide) (by decide)

/-- C2 — the claim is false on the code: for the positionals
`[{name:"infile", nargs:"+"}, {name:"outfile", nargs:1}]` the source renders
`"INFILE... OUTFILE  "` with TWO trailing spaces (the exact-count branch
appends a space after each repetition, line 150, and every positional is
followed by one separator space, line 151), not `"INFILE... OUTFILE "`. -/
theorem C2_counterexample :
    positionalRendering [infileDesc, outfileDesc] = .ok "INFILE... OUTFILE  "
  ∧ ("INFILE... OUTFILE  " : String) ≠ "INFILE... OUTFILE " := by
  exact ⟨by decide, by decide⟩

/-- C2 (amended) — for every descriptor list whose positional descriptors
are `{name:"infile", nargs:"+"}` then `{name:"outfile", nargs:1}` with no
display overrides, the positional segment of the usage line is exactly
`"INFILE... OUTFILE  "` (uppercase names, `...` appended for `"+"`, a single
repetition for exact count 1, each repetition of an exact-count name
followed by a space, and each positional segment followed by one separator
space, in descriptor order). -/
theorem C2_amended {L : List Desc} {p1 p2 : Desc}
    (hfilter : L.filter (fun o => o.type == "positional") = [p1, p2])
    (h1n : p1.name = some "infile") (h1a : p1.nargs = some .plus)
    (h1d : p1.display = none)
    (h2n : p2.name = some "outfile") (h2a : p2.nargs = some (.num 1))
    (h2d : p2.display = none) :
    positionalRendering L = .ok "INFILE... OUTFILE  " := by
  have h1m : p1 ∈ L.filter (fun o => o.type == "positional") := by
    rw [hfilter]
    simp
  have h2m : p2 ∈ L.filter (fun o => o.type == "positional") := by
    rw [hfilter]
    simp
  have h1t : p1.type = "positional" := by
    simpa using (List.mem_filter.mp h1m).2
  have h2t : p2.type = "positional" := by
    simpa using (List.mem_filter.mp h2m).2
  rw [positionalRendering_filter, hfilter]
  simp [positionalRendering, h1t, h2t, posSegment, req, h1a, h2a, upperName,
    h1d, h2d, h1n, h2n, bind, Except.bind]
  decide

/-- Witness for C2 (amended): a list holding a switch and the two
positionals renders the positional segment `"INFILE... OUTFILE  "`. -/
theorem C2_witness :
    positionalRendering [switchA, infileDesc, outfileDesc]
      = .ok "INFILE... OUTFILE  " :=
  @C2_amended [switchA, infileDesc, outfileDesc] infileDesc outfileDesc
    (by decide) (by decide) (by decide) (by decide) (by decide) (by decide)
    (by decide)

/-- C3 — the claim is false on the code: construction only searches for the
FIRST `help` descriptor and appends a default one when none is found; it
never rejects or removes extra ones.  Concrete input: a list holding two
`help`-typed descriptors (with distinct flag spellings, which the underlying
engine accepts) completes construction with two `help` descriptors, not
exactly one. -/
theorem C3_counterexample :
    (construct [OPT_DEFAULT_HELP, altHelpDesc] MSG_SYNTAX_ERROR
        EXITCODE_ERROR MSG_USAGE_HELP EXITCODE_USAGE).map
      (fun p => countHelp p.options) = .ok 2
  ∧ (2 : Nat) ≠ 1 := by
  exact ⟨by decide, by decide⟩

/-- C3 (amended) — after construction completes, the descriptor list
contains AT LEAST one descriptor with `type == "help"`, and exactly one
whenever the supplied list contained at most one (in particular whenever it
contained none, the default `-h`/`--help` one being appended); no descriptor
is created or destroyed after construction. -/
theorem C3_amended {opts : List Desc} {me mu : String} {ee eu : Nat}
    {p : ParserState} (hc : construct opts me ee mu eu = .ok p) :
    1 ≤ countHelp p.options
    ∧ (countHelp opts ≤ 1 → countHelp p.options = 1) := by
  unfold construct at hc
  cases hf : findHelp opts with
  | some h =>
    simp only [hf] at hc
    cases hra : registerAll opts with
    | error e => rw [hra] at hc; cases hc
    | ok ps =>
      rw [hra] at hc
      cases hc
      have hch : countHelp (ps.map Prod.fst) = countHelp opts :=
        countHelp_map_fst (registerAll_ok_types hra)
      obtain ⟨hm, ht⟩ := findHelp_eq_some hf
      have hpos := countHelp_pos hm ht
      constructor
      · simpa [hch] using hpos
      · intro hle
        simp only [hch]
        omega
  | none =>
    simp only [hf] at hc
    cases hra : registerAll (opts ++ [OPT_DEFAULT_HELP]) with
    | error e => rw [hra] at hc; cases hc
    | ok ps =>
      rw [hra] at hc
      cases hc
      have hch : countHelp (ps.map Prod.fst)
          = countHelp (opts ++ [OPT_DEFAULT_HELP]) :=
        countHelp_map_fst (registerAll_ok_types hra)
      have hz : countHelp opts = 0 :=
        countHelp_eq_zero (findHelp_eq_none.mp hf)
      have happ : countHelp (opts ++ [OPT_DEFAULT_HELP])
          = countHelp opts + countHelp [OPT_DEFAULT_HELP] :=
        countHelp_append opts [OPT_DEFAULT_HELP]
      have hone : countHelp [OPT_DEFAULT_HELP] = 1 := by decide
      constructor
      · simp [hch, happ, hz, hone]
      · intro _
        simp [hch, happ, hz, hone]

/-- Witness for C3 (amended): constructing from the empty descriptor list
yields exactly one `help` descriptor. -/
theorem C3_witness :
    1 ≤ countHelp emptyConstructState.options
    ∧ (countHelp ([] : List Desc) ≤ 1
        → countHelp emptyConstructState.options = 1) :=
  @C3_amended [] MSG_SYNTAX_ERROR MSG_USAGE_HELP EXITCODE_ERROR
    EXITCODE_USAGE emptyConstructState (by decide)

/-- The descriptor `outfileDesc` after its `syntax` was attached. -/
def outfileProcessed : Desc := { outfileDesc with syn := some "outfile" }

/-- The registration `outfileDesc` produces: `nargs` is passed as Python
`None` because the descriptor's exact count is 1. -/
def outfileReg : Reg :=
  { kind := "positional", flags := ["outfile"], nargs := none,
    action := "store", dest := some "outfile", dfltVal := .pynone }

/-- C4 — a positional descriptor with integer `nargs = 1` is registered with
`nargs=None` (source line 122), so a successful parse stores the single
command-line token itself as a scalar under the descriptor's name, never a
one-element list. -/
theorem C4_theorem {o : Desc} {n tok : String} {d : Desc} {r : Reg}
    (htype : o.type = "positional") (hn : o.name = some n)
    (hna : o.nargs = some (.num 1))
    (hreg : registerOption o = .ok (d, r)) :
    r.nargs = none ∧ r.dest = some n
    ∧ engineStorePos r [tok] = some (.pystr tok)
    ∧ (∀ v : List String, engineStorePos r [tok] ≠ some (.pylist v)) := by
  unfold registerOption at hreg
  simp [htype, req, hn, hna, bind, Except.bind] at hreg
  obtain ⟨hd, hr⟩ := hreg
  subst hr
  refine ⟨rfl, rfl, rfl, ?_⟩
  intro v
  simp [engineStorePos]

/-- Witness for C4: registering `{name:"outfile", nargs:1}` and parsing the
token `"out.bin"` stores the scalar string `"out.bin"`. -/
theorem C4_witness :
    outfileReg.nargs = none ∧ outfileReg.dest = some "outfile"
    ∧ engineStorePos outfileReg ["out.bin"] = some (.pystr "out.bin")
    ∧ (∀ v : List String,
        engineStorePos outfileReg ["out.bin"] ≠ some (.pylist v)) :=
  @C4_theorem outfileDesc "outfile" "out.bin" outfileProcessed outfileReg
    (by decide) (by decide) (by decide) (by decide)

/-- A parser state configured like the module's `example()` function: its
error template holds one `%s` placeholder. -/
def exampleState : ParserState :=
  { options := [defaultHelpProcessed], regs := [defaultHelpReg],
    optHelp := OPT_DEFAULT_HELP,
    msgError := "Invalid or insufficient command line. Use %s for detailed usage information.",
    excError := 2,
    msgUsage := "Usage: %s [OPTION]... %s\n\nExample for Python module Argument Parser. The options\nspecified below are for demonstration purposes only.\n\nOptions:",
    excUsage := 0 }

/-- C5 — on every parse failure the engine reports, `error(message)` ignores
the engine-supplied message (the result is the same for any two messages),
fills the configured `error_message` template's single `%s` placeholder with
the help descriptor's long flag spelling, and terminates the process with
exit code `error_exit_code`; the precondition "the template contains exactly
one string placeholder" is the hypothesis that its text splits as
`pre ++ "%s" ++ suf` with `%`-free `pre` and `suf`. -/
theorem C5_theorem {p : ParserState} {pre suf : List Char} {l : String}
    (htempl : p.msgError.data = pre ++ '%' :: 's' :: suf)
    (hpre : '%' ∉ pre) (hsuf : '%' ∉ suf)
    (hlong : p.optHelp.long = some l) (msg msg2 : String) :
    ArgParse.error p msg = ArgParse.error p msg2
    ∧ ArgParse.error p msg
      = .ok (p.excError, String.mk pre ++ (l ++ String.mk suf) ++ "\n") := by
  refine ⟨rfl, ?_⟩
  unfold ArgParse.error
  simp [req, hlong, bind, Except.bind,
    pyFormat1_one_placeholder htempl hpre hsuf]

/-- Witness for C5: the example's error template, filled with `--help`, for
two different engine messages. -/
theorem C5_witness :
    ArgParse.error exampleState "unrecognized arguments: --x"
      = ArgParse.error exampleState "the following arguments are required"
    ∧ ArgParse.error exampleState "unrecognized arguments: --x"
      = .ok (2, String.mk "Invalid or insufficient command line. Use ".data
          ++ ("--help" ++ String.mk " for detailed usage information.".data)
          ++ "\n") :=
  @C5_theorem exampleState
    "Invalid or insufficient command line. Use ".data
    " for detailed usage information.".data "--help" (by decide) (by decide)
    (by decide) (by decide) "unrecognized arguments: --x"
    "the following arguments are required"

/-- C9 — the module-level default error template `MSG_SYNTAX_ERROR` holds no
format placeholder, so for a parser constructed with it any parse failure
makes `error()` raise a formatting `TypeError` at the `%` operation
(modelled as the `Except.error` outcome) instead of exiting with the
configured error exit code. -/
theorem C9_theorem {p : ParserState} {l : String} (msg : String)
    (hmsg : p.msgError = MSG_SYNTAX_ERROR)
    (hlong : p.optHelp.long = some l) :
    ('%' ∉ MSG_SYNTAX_ERROR.data)
    ∧ ArgParse.error p msg
      = .error "not all arguments converted during string formatting" := by
  refine ⟨by decide, ?_⟩
  unfold ArgParse.error
  rw [hmsg]
  simp [req, hlong, bind, Except.bind, pyFormat1,
    pyFormatChars_no_pct_extra (by decide : '%' ∉ MSG_SYNTAX_ERROR.data)]

/-- Witness for C9: the default-configured parser raises on any parse
failure. -/
theorem C9_witness :
    ('%' ∉ MSG_SYNTAX_ERROR.data)
    ∧ ArgParse.error emptyConstructState "unrecognized arguments: --x"
      = .error "not all arguments converted during string formatting" :=
  @C9_theorem emptyConstructState "--help" "unrecognized arguments: --x"
    (by decide) (by decide)

/-- C6 — constructing from a descriptor list without a `help` entry appends
exactly one default help descriptor (`short "-h"`, `long "--help"`,
`name "help"`, help text `"Display this message"`) at the end of the list,
and after construction every descriptor, the appended one included, carries
a computed `syntax` field. -/
theorem C6_theorem {opts : List Desc} {me mu : String} {ee eu : Nat}
    {p : ParserState}
    (hnone : ∀ o ∈ opts, o.type ≠ "help")
    (hc : construct opts me ee mu eu = .ok p) :
    p.options.length = opts.length + 1
    ∧ p.options.drop opts.length = [defaultHelpProcessed]
    ∧ (∀ d ∈ p.options, d.syn.isSome = true)
    ∧ OPT_DEFAULT_HELP.short = some "-h"
    ∧ OPT_DEFAULT_HELP.long = some "--help"
    ∧ OPT_DEFAULT_HELP.name = some "help"
    ∧ OPT_DEFAULT_HELP.help = some "Display this message" := by
  have hf : findHelp opts = none := findHelp_eq_none.mpr hnone
  unfold construct at hc
  simp only [hf] at hc
  cases hra : registerAll (opts ++ [OPT_DEFAULT_HELP]) with
  | error e => rw [hra] at hc; cases hc
  | ok ps =>
    rw [hra] at hc
    cases hc
    obtain ⟨p1, p2, h1, h2, hps⟩ := registerAll_append_ok hra
    have h2' : p2 = [(defaultHelpProcessed, defaultHelpReg)] := by
      have hq : registerAll [OPT_DEFAULT_HELP]
          = .ok [(defaultHelpProcessed, defaultHelpReg)] := by decide
      rw [hq] at h2
      cases h2
      rfl
    subst h2'
    subst hps
    have hlen : p1.length = opts.length := registerAll_ok_length h1
    refine ⟨?_, ?_, ?_, rfl, rfl, rfl, rfl⟩
    · simp [hlen]
    · have hmaplen : (p1.map Prod.fst).length = opts.length := by
        simp [hlen]
      rw [List.map_append, ← hmaplen, List.drop_left]
      rfl
    · intro d hd
      obtain ⟨pr, hpr, hfst⟩ := List.mem_map.mp hd
      obtain ⟨o, _, hro⟩ := registerAll_mem_ok hra hpr
      rw [← hfst]
      obtain ⟨d', r'⟩ := pr
      exact (registerOption_ok_props hro).1

/-- Witness for C6: constructing from the empty descriptor list. -/
theorem C6_witness :
    emptyConstructState.options.length = ([] : List Desc).length + 1
    ∧ emptyConstructState.options.drop ([] : List Desc).length
        = [defaultHelpProcessed]
    ∧ (∀ d ∈ emptyConstructState.options, d.syn.isSome = true)
    ∧ OPT_DEFAULT_HELP.short = some "-h"
    ∧ OPT_DEFAULT_HELP.long = some "--help"
    ∧ OPT_DEFAULT_HELP.name = some "help"
    ∧ OPT_DEFAULT_HELP.help = some "Display this message" :=
  @C6_theorem [] MSG_SYNTAX_ERROR MSG_USAGE_HELP EXITCODE_ERROR
    EXITCODE_USAGE emptyConstructState (by simp) (by decide)

/-- C7 — a `normal` option is registered with its configured `default` value
when the descriptor carries one and with Python `None` otherwise (source
line 116), so a parse on which the option is absent stores that default (or
none) under the descriptor's name. -/
theorem C7_theorem {o : Desc} {s l a n : String} {d : Desc} {r : Reg}
    (htype : o.type = "normal") (hs : o.short = some s)
    (hl : o.long = some l) (ha : o.arg = some a) (hn : o.name = some n)
    (hreg : registerOption o = .ok (d, r)) :
    r.dest = some n
    ∧ (∀ v : String, o.dflt = some v → engineAbsent r = .pystr v)
    ∧ (o.dflt = none → engineAbsent r = .pynone) := by
  unfold registerOption at hreg
  simp [htype, req, hs, hl, ha, hn, bind, Except.bind] at hreg
  obtain ⟨hd, hr⟩ := hreg
  subst hr
  refine ⟨rfl, ?_, ?_⟩
  · intro v hv
    simp [engineAbsent, hv]
  · intro hv
    simp [engineAbsent, hv]

/-- The registration `logfileDesc` produces. -/
def logfileReg : Reg :=
  { kind := "normal", flags := ["-l", "--logfile"], nargs := some .qmark,
    action := "store", dest := some "logfile",
    dfltVal := .pystr "out.log" }

/-- Witness for C7: the `normal` option `logfileDesc` with default
`"out.log"`, absent from the command line, yields that default. -/
theorem C7_witness :
    logfileReg.dest = some "logfile"
    ∧ (∀ v : String, logfileDesc.dflt = some v
        → engineAbsent logfileReg = .pystr v)
    ∧ (logfileDesc.dflt = none → engineAbsent logfileReg = .pynone) :=
  @C7_theorem logfileDesc "-l" "--logfile" "file" "logfile"
    { logfileDesc with syn := some "-l, --logfile=file" } logfileReg
    (by decide) (by decide) (by decide) (by decide) (by decide) (by decide)

/-- Whether an outcome is a raised exception. -/
def raisesError {a : Type} : Except String a → Bool
  | .error _ => true
  | .ok _ => false

theorem regTrace_kinds {L : List Desc} {r : Reg} (hr : r ∈ regTrace L) :
    r.kind = "normal" ∨ r.kind = "switch" ∨ r.kind = "positional" ∨
      r.kind = "help" := by
  induction L with
  | nil => simp [regTrace] at hr
  | cons o rest ih =>
    unfold regTrace at hr
    cases hq : registerOption o with
    | error e => rw [hq] at hr; cases hr
    | ok pr =>
      obtain ⟨d', r'⟩ := pr
      rw [hq] at hr
      rcases List.mem_cons.mp hr with h | h
      · subst h
        exact (registerOption_ok_props hq).2.2
      · exact ih h

/-- C8 — a descriptor whose `type` is none of `"normal"`, `"switch"`,
`"positional"`, `"help"` makes construction raise (`raise Exception`,
source line 127) before it completes, and no registration of such a
descriptor is ever made against the underlying engine: every registration
performed before the exception carries one of the four recognized kinds,
none of them the unrecognized `type`. -/
theorem C8_theorem {opts : List Desc} {me mu : String} {ee eu : Nat}
    {o : Desc} (hmem : o ∈ opts)
    (h1 : o.type ≠ "normal") (h2 : o.type ≠ "switch")
    (h3 : o.type ≠ "positional") (h4 : o.type ≠ "help") :
    raisesError (construct opts me ee mu eu) = true
    ∧ (∀ r ∈ constructTrace opts, r.kind ≠ o.type) := by
  constructor
  · cases hc : construct opts me ee mu eu with
    | error e => rfl
    | ok p =>
      exfalso
      unfold construct at hc
      cases hf : findHelp opts with
      | some h =>
        simp only [hf] at hc
        cases hra : registerAll opts with
        | error e => rw [hra] at hc; cases hc
        | ok ps =>
          obtain ⟨pr, hpr⟩ := registerAll_forall_ok hra o hmem
          rw [registerOption_bad_type h1 h2 h3 h4] at hpr
          cases hpr
      | none =>
        simp only [hf] at hc
        cases hra : registerAll (opts ++ [OPT_DEFAULT_HELP]) with
        | error e => rw [hra] at hc; cases hc
        | ok ps =>
          obtain ⟨pr, hpr⟩ :=
            registerAll_forall_ok hra o (List.mem_append_left _ hmem)
          rw [registerOption_bad_type h1 h2 h3 h4] at hpr
          cases hpr
  · intro r hr
    have hk : r.kind = "normal" ∨ r.kind = "switch" ∨
        r.kind = "positional" ∨ r.kind = "help" := by
      unfold constructTrace at hr
      cases hf : findHelp opts with
      | some h => rw [hf] at hr; exact regTrace_kinds hr
      | none => rw [hf] at hr; exact regTrace_kinds hr
    rcases hk with hk | hk | hk | hk <;> rw [hk] <;>
      [exact fun hq => h1 hq.symm; exact fun hq => h2 hq.symm;
       exact fun hq => h3 hq.symm; exact fun hq => h4 hq.symm]

/-- A descriptor of unrecognized `type`. -/
def bogusDesc : Desc := { emptyDesc with type := "bogus" }

/-- Witness for C8: a single unrecognized descriptor aborts construction and
leaves an empty registration trace. -/
theorem C8_witness :
    raisesError (construct [bogusDesc] MSG_SYNTAX_ERROR EXITCODE_ERROR
        MSG_USAGE_HELP EXITCODE_USAGE) = true
    ∧ (∀ r ∈ constructTrace [bogusDesc], r.kind ≠ bogusDesc.type) :=
  @C8_theorem [bogusDesc] MSG_SYNTAX_ERROR MSG_USAGE_HELP EXITCODE_ERROR
    EXITCODE_USAGE bogusDesc (by decide) (by decide) (by decide) (by decide)
    (by decide)

/-- C10 — when the supplied descriptor list has no `help` entry, the
constructor appends the address of the module-level `OPT_DEFAULT_HELP`
dictionary itself (`self.options.append(self.opt_help)`, line 110) — not a
copy — and then stores a `syntax` key into that very object (line 124): the
first such construction mutates the shared module-level constant (its cell
goes from `syn = none` to `syn = some "-h, --help"`), and a later parser
constructed (from the mutated heap) without a `help` entry appends that
same, already-mutated address to its own list. -/
theorem C10_theorem {h0 h1 h2 : Heap} {addrs addrs2 l1 l2 : List Nat}
    {ha a1 a2 : Nat}
    (hcell : h0.get ha = OPT_DEFAULT_HELP)
    (hno1 : ∀ a ∈ addrs, (h0.get a).type ≠ "help") (hni1 : ha ∉ addrs)
    (hc1 : constructH h0 addrs ha = .ok (h1, l1, a1))
    (hno2 : ∀ a ∈ addrs2, (h1.get a).type ≠ "help") (hni2 : ha ∉ addrs2)
    (hc2 : constructH h1 addrs2 ha = .ok (h2, l2, a2)) :
    l1 = addrs ++ [ha] ∧ a1 = ha
    ∧ h1.get ha = defaultHelpProcessed
    ∧ OPT_DEFAULT_HELP.syn = none
    ∧ l2 = addrs2 ++ [ha] ∧ a2 = ha := by
  have hf1 : findHelpAddr h0 addrs = none := findHelpAddr_none hno1
  unfold constructH at hc1
  simp only [hf1] at hc1
  cases hat : attachSynAddrs h0 (addrs ++ [ha]) with
  | error e => rw [hat] at hc1; cases hc1
  | ok h1' =>
    rw [hat] at hc1
    cases hc1
    have hsplit := @attachSynAddrs_append h0 addrs [ha]
    rw [hat] at hsplit
    have hget1 : h1.get ha = defaultHelpProcessed := by
      cases hmid : attachSynAddrs h0 addrs with
      | error e => rw [hmid] at hsplit; cases hsplit
      | ok hm =>
        rw [hmid] at hsplit
        have hgm : hm.get ha = OPT_DEFAULT_HELP := by
          rw [attachSynAddrs_ok_get_notmem hni1 hmid, hcell]
        unfold attachSynAddrs at hsplit
        rw [hgm] at hsplit
        have hro : registerOption OPT_DEFAULT_HELP
            = .ok (defaultHelpProcessed, defaultHelpReg) := by decide
        rw [hro] at hsplit
        unfold attachSynAddrs at hsplit
        cases hsplit
        have hlt0 : ha < h0.cells.length := by
          apply Heap.lt_of_get_ne
          rw [hcell]
          decide
        have hltm : ha < hm.cells.length := by
          rw [attachSynAddrs_ok_length hmid]
          exact hlt0
        exact Heap.get_set_self hltm defaultHelpProcessed
    have hf2 : findHelpAddr h1 addrs2 = none := findHelpAddr_none hno2
    unfold constructH at hc2
    simp only [hf2] at hc2
    cases hat2 : attachSynAddrs h1 (addrs2 ++ [ha]) with
    | error e => rw [hat2] at hc2; cases hc2
    | ok h2' =>
      rw [hat2] at hc2
      cases hc2
      exact ⟨rfl, rfl, hget1, rfl, rfl, rfl⟩

/-- The processed form of `switchA`. -/
def switchAProcessed : Desc := { switchA with syn := some "-a, --aaaa" }

/-- Witness for C10: a heap holding the module constant at address 0 and a
switch at address 1; two successive constructions (each from the option list
`[1]`, without a `help` entry) both append address 0, and the first mutates
the constant's cell. -/
theorem C10_witness :
    ([1, 0] : List Nat) = [1] ++ [0] ∧ (0 : Nat) = 0
    ∧ (Heap.mk [defaultHelpProcessed, switchAProcessed]).get 0
        = defaultHelpProcessed
    ∧ OPT_DEFAULT_HELP.syn = none
    ∧ ([1, 0] : List Nat) = [1] ++ [0] ∧ (0 : Nat) = 0 :=
  @C10_theorem (Heap.mk [OPT_DEFAULT_HELP, switchA])
    (Heap.mk [defaultHelpProcessed, switchAProcessed])
    (Heap.mk [defaultHelpProcessed, switchAProcessed])
    [1] [1] [1, 0] [1, 0] 0 0 0
    (by decide) (by decide) (by decide) (by decide) (by decide) (by decide)
    (by decide)

end ArgParse
